import Mathlib

/-
  Shallow embedding of src/main.rs (a Rust/SDL2 elementary cellular automaton).

  Only the simulation core is embedded (SimContext and its methods); the SDL
  rendering and event loop are external collaborators per the specification.

  Modelling conventions:
  * Rust i32 coordinates are modelled as Int.  All coordinates reachable by the
    simulation stay far below 2^31, so wrap-around of i32 arithmetic never
    occurs on the states the theorems quantify over.
  * The fixed 2D array `[[bool; 100]; 101]`, indexed points[x][y], is modelled
    as a total function `Fin 101 → Fin 100 → Bool`.
  * Rust indexing converts an i32 to usize with `as usize`; a negative value
    becomes a huge usize, so an access panics exactly when the coordinate is
    outside 0 ≤ x < 101 / 0 ≤ y < 100.  Panics (indexing faults, expect,
    unwrap) are modelled by Option: `none` is a fault.
-/

/- const GRID_X_SIZE: u32 = 101; (main.rs line 12) -/
abbrev GRID_X_SIZE : Nat := 101

/- const GRID_Y_SIZE: u32 = 100; (main.rs line 13) -/
abbrev GRID_Y_SIZE : Nat := 100

/- pub enum SimulationState { Playing, Paused } (main.rs lines 65-68) -/
inductive SimulationState where
  | Playing
  | Paused
deriving DecidableEq

/- pub struct Point(pub i32, pub i32); (main.rs line 71).  Field x models .0,
   field y models .1. -/
structure Point where
  x : Int
  y : Int
deriving DecidableEq

/- impl Add<Point> for Point (main.rs lines 79-85): component-wise addition. -/
instance : Add Point := ⟨fun a b => ⟨a.x + b.x, a.y + b.y⟩⟩

theorem Point.add_def (a b : Point) : a + b = ⟨a.x + b.x, a.y + b.y⟩ := rfl

abbrev Grid := Fin GRID_X_SIZE → Fin GRID_Y_SIZE → Bool

/- pub struct SimContext (main.rs lines 73-77). -/
structure SimContext where
  points : Grid
  scanner : List Point
  state : SimulationState

/- u32::div_ceil: (a + b - 1) / b for b > 0, used at main.rs line 92. -/
def divCeil (a b : Nat) : Nat := (a + b - 1) / b

/- SimContext::new (main.rs lines 88-99): all-false grid with a single seed
   cell cells[GRID_X_SIZE.div_ceil(2)][1] = true, scanner
   vec![Point(0,1), Point(1,1), Point(2,1)], state Paused. -/
def SimContext.new : SimContext :=
  { points := fun i j => if i.val = divCeil GRID_X_SIZE 2 ∧ j.val = 1 then true else false
    scanner := [⟨0, 1⟩, ⟨1, 1⟩, ⟨2, 1⟩]
    state := .Paused }

/- get_value_at_point (main.rs lines 139-144): casts the i32 coordinates to
   usize and indexes self.points[x][y]; out of range is a panic (none). -/
def SimContext.get_value_at_point (ctx : SimContext) (point : Point) : Option Bool :=
  if h : 0 ≤ point.x ∧ point.x < (GRID_X_SIZE : Int) ∧ 0 ≤ point.y ∧ point.y < (GRID_Y_SIZE : Int) then
    some (ctx.points ⟨point.x.toNat, by omega⟩ ⟨point.y.toNat, by omega⟩)
  else none

/- Pointwise update of the grid, the effect of `self.points[x][y] = v`. -/
def write_cell (g : Grid) (x y : Nat) (v : Bool) : Grid :=
  fun i j => if i.val = x ∧ j.val = y then v else g i j

/- The indexed assignment `self.points[pt.0 as usize][pt.1 as usize] = v`:
   same bounds discipline as a read, a fault (none) when out of range. -/
def set_point (g : Grid) (pt : Point) (v : Bool) : Option Grid :=
  if 0 ≤ pt.x ∧ pt.x < (GRID_X_SIZE : Int) ∧ 0 ≤ pt.y ∧ pt.y < (GRID_Y_SIZE : Int) then
    some (write_cell g pt.x.toNat pt.y.toNat v)
  else none

/- let result = p ^ (q | r); (main.rs line 134). -/
def ruleFn (p q r : Bool) : Bool := xor p (q || r)

/- calculate_state (main.rs lines 125-138): pp = scanner.get(2), pq =
   scanner.get(1), pr = scanner.get(0) (each .expect, a panic when absent);
   p, q, r the grid values there; writes ruleFn p q r into
   points[pq.0][(pq.1 + 1)]. -/
def SimContext.calculate_state (ctx : SimContext) : Option SimContext :=
  (ctx.scanner.get? 2).bind fun pp =>
  (ctx.scanner.get? 1).bind fun pq =>
  (ctx.scanner.get? 0).bind fun pr =>
  (ctx.get_value_at_point pp).bind fun p =>
  (ctx.get_value_at_point pq).bind fun q =>
  (ctx.get_value_at_point pr).bind fun r =>
  (set_point ctx.points ⟨pq.x, pq.y + 1⟩ (ruleFn p q r)).map fun g =>
    { ctx with points := g }

/- move_scanner (main.rs lines 107-124): early return when Paused; head =
   scanner.first().unwrap(); next head is head + (1,0), overridden to
   (0, head.y + 1) when head.x == (GRID_X_SIZE - 1) as i32; then
   pop / reverse / push / reverse. -/
def SimContext.move_scanner (ctx : SimContext) : Option SimContext :=
  match ctx.state with
  | .Paused => some ctx
  | .Playing =>
    match ctx.scanner.head? with
    | none => none
    | some head =>
      some { ctx with scanner := (ctx.scanner.dropLast.reverse
        ++ [if head.x = (GRID_X_SIZE : Int) - 1 then ⟨0, head.y + 1⟩
            else head + (⟨1, 0⟩ : Point)]).reverse }

/- next_tick (main.rs lines 100-106): returns immediately when Paused,
   otherwise move_scanner then calculate_state. -/
def SimContext.next_tick (ctx : SimContext) : Option SimContext :=
  match ctx.state with
  | .Paused => some ctx
  | .Playing => ctx.move_scanner.bind SimContext.calculate_state

/- toggle_pause (main.rs lines 145-150). -/
def SimContext.toggle_pause (ctx : SimContext) : SimContext :=
  { ctx with state := match ctx.state with | .Playing => .Paused | .Paused => .Playing }

/- The two operations the event loop can apply to a SimContext: a simulation
   tick (every 10th frame) and the pause toggle (space / escape key). -/
inductive Op where
  | tick
  | toggle

def apply_op (c : SimContext) : Op → Option SimContext
  | .tick => c.next_tick
  | .toggle => some c.toggle_pause

def run_ops (c : SimContext) : List Op → Option SimContext
  | [] => some c
  | o :: rest => (apply_op c o).bind fun c2 => run_ops c2 rest

/- A context is reachable when some sequence of ticks and toggles produces it
   from SimContext::new without faulting. -/
def Reachable (ctx : SimContext) : Prop :=
  ∃ ops : List Op, run_ops SimContext.new ops = some ctx

/- Iterated next_tick, for the unbounded-sweep analysis. -/
def run_ticks (c : SimContext) : Nat → Option SimContext
  | 0 => some c
  | t + 1 => (run_ticks c t).bind SimContext.next_tick

/- ### Shared helper lemmas -/

theorem Point.ext_xy {a b : Point} (hx : a.x = b.x) (hy : a.y = b.y) : a = b := by
  cases a
  cases b
  rw [Point.mk.injEq]
  exact ⟨hx, hy⟩

/- What move_scanner does to a Playing context holding a 3-point scanner:
   the pop / reverse / push / reverse shuffle yields [next_head, s0, s1]. -/
theorem move_scanner_eq (ctx : SimContext) (s0 s1 s2 : Point)
    (hst : ctx.state = .Playing) (hsc : ctx.scanner = [s0, s1, s2]) :
    ctx.move_scanner = some { ctx with scanner :=
      [if s0.x = (GRID_X_SIZE : Int) - 1 then ⟨0, s0.y + 1⟩ else s0 + (⟨1, 0⟩ : Point), s0, s1] } := by
  unfold SimContext.move_scanner
  rw [hst, hsc]
  rfl

theorem get_value_some (ctx : SimContext) (pt : Point)
    (h : 0 ≤ pt.x ∧ pt.x < (GRID_X_SIZE : Int) ∧ 0 ≤ pt.y ∧ pt.y < (GRID_Y_SIZE : Int)) :
    ctx.get_value_at_point pt
      = some (ctx.points ⟨pt.x.toNat, by omega⟩ ⟨pt.y.toNat, by omega⟩) := by
  unfold SimContext.get_value_at_point
  rw [dif_pos h]

theorem get_value_isSome (ctx : SimContext) (pt : Point)
    (h : 0 ≤ pt.x ∧ pt.x < (GRID_X_SIZE : Int) ∧ 0 ≤ pt.y ∧ pt.y < (GRID_Y_SIZE : Int)) :
    ∃ b, ctx.get_value_at_point pt = some b :=
  ⟨_, get_value_some ctx pt h⟩

theorem get_value_bounds (ctx : SimContext) (pt : Point) (b : Bool)
    (h : ctx.get_value_at_point pt = some b) :
    0 ≤ pt.x ∧ pt.x < (GRID_X_SIZE : Int) ∧ 0 ≤ pt.y ∧ pt.y < (GRID_Y_SIZE : Int) := by
  by_contra hcon
  rw [SimContext.get_value_at_point, dif_neg hcon] at h
  exact Option.noConfusion h

/- Success case of calculate_state on a 3-point scanner: the cell one row
   below the middle point receives ruleFn p q r. -/
theorem calculate_state_eq (ctx : SimContext) (s0 s1 s2 : Point) (p q r : Bool)
    (hsc : ctx.scanner = [s0, s1, s2])
    (hpv : ctx.get_value_at_point s2 = some p)
    (hqv : ctx.get_value_at_point s1 = some q)
    (hrv : ctx.get_value_at_point s0 = some r)
    (hw : 0 ≤ s1.y + 1 ∧ s1.y + 1 < (GRID_Y_SIZE : Int)) :
    ctx.calculate_state
      = some { ctx with
          points := write_cell ctx.points s1.x.toNat (s1.y + 1).toNat (ruleFn p q r) } := by
  have hb := get_value_bounds ctx s1 q hqv
  unfold SimContext.calculate_state
  rw [hsc]
  simp only [List.get?_cons_zero, List.get?_cons_succ, Option.some_bind]
  rw [hpv, hqv, hrv]
  simp only [Option.some_bind]
  unfold set_point
  rw [if_pos (show (0:Int) ≤ s1.x ∧ s1.x < (GRID_X_SIZE : Int)
        ∧ 0 ≤ s1.y + 1 ∧ s1.y + 1 < (GRID_Y_SIZE : Int) from ⟨hb.1, hb.2.1, hw.1, hw.2⟩)]
  rfl

/- Failure case of calculate_state: the reads succeed but the write row
   s1.y + 1 lies outside the grid, so the indexed assignment faults. -/
theorem calculate_state_none_of_write_oob (ctx : SimContext) (s0 s1 s2 : Point) (p q r : Bool)
    (hsc : ctx.scanner = [s0, s1, s2])
    (hpv : ctx.get_value_at_point s2 = some p)
    (hqv : ctx.get_value_at_point s1 = some q)
    (hrv : ctx.get_value_at_point s0 = some r)
    (hw : ¬ s1.y + 1 < (GRID_Y_SIZE : Int)) :
    ctx.calculate_state = none := by
  unfold SimContext.calculate_state
  rw [hsc]
  simp only [List.get?_cons_zero, List.get?_cons_succ, Option.some_bind]
  rw [hpv, hqv, hrv]
  simp only [Option.some_bind]
  unfold set_point
  rw [if_neg (fun hfull => hw hfull.2.2.2)]
  rfl

theorem get_value_write_same (ctx : SimContext) (pt : Point) (v : Bool)
    (h : 0 ≤ pt.x ∧ pt.x < (GRID_X_SIZE : Int) ∧ 0 ≤ pt.y ∧ pt.y < (GRID_Y_SIZE : Int)) :
    SimContext.get_value_at_point
      { ctx with points := write_cell ctx.points pt.x.toNat pt.y.toNat v } pt = some v := by
  rw [get_value_some _ _ h]
  simp [write_cell]

theorem get_value_write_other (ctx : SimContext) (pt tgt : Point) (v : Bool)
    (htgt : 0 ≤ tgt.x ∧ tgt.x < (GRID_X_SIZE : Int) ∧ 0 ≤ tgt.y ∧ tgt.y < (GRID_Y_SIZE : Int))
    (hne : pt ≠ tgt) :
    SimContext.get_value_at_point
      { ctx with points := write_cell ctx.points tgt.x.toNat tgt.y.toNat v } pt
      = ctx.get_value_at_point pt := by
  unfold SimContext.get_value_at_point
  by_cases h : 0 ≤ pt.x ∧ pt.x < (GRID_X_SIZE : Int) ∧ 0 ≤ pt.y ∧ pt.y < (GRID_Y_SIZE : Int)
  · rw [dif_pos h, dif_pos h]
    have hcne : ¬ (pt.x.toNat = tgt.x.toNat ∧ pt.y.toNat = tgt.y.toNat) := by
      intro hc
      exact hne (Point.ext_xy (by omega) (by omega))
    simp [write_cell, hcne]
  · rw [dif_neg h, dif_neg h]

/- ### Closed form of the scanner walk (Playing, starting from new's scanner)

   After the first tick the scanner always has the shape
   [headPos t, headPos (t-1), headPos (t-2)] (with a small transient at t = 1):
   the head walks left-to-right through row 1, then row 2, and so on. -/

def headPos (t : Nat) : Point :=
  ⟨((t % GRID_X_SIZE : Nat) : Int), ((1 + t / GRID_X_SIZE : Nat) : Int)⟩

def thirdAt : Nat → Point
  | 0 => headPos 1
  | s + 1 => headPos s

def scannerAt : Nat → List Point
  | 0 => [headPos 0, headPos 1, headPos 2]
  | a + 1 => [headPos (a + 1), headPos a, thirdAt a]

theorem headPos_step (a : Nat) :
    (if (headPos a).x = (GRID_X_SIZE : Int) - 1 then (⟨0, (headPos a).y + 1⟩ : Point)
      else headPos a + (⟨1, 0⟩ : Point)) = headPos (a + 1) := by
  unfold headPos
  simp only [GRID_X_SIZE, Point.add_def]
  split
  next h => rw [Point.mk.injEq]; constructor <;> omega
  next h => rw [Point.mk.injEq]; constructor <;> omega

theorem headPos_bounds (k : Nat) (hk : k ≤ 9998) :
    0 ≤ (headPos k).x ∧ (headPos k).x < (GRID_X_SIZE : Int)
      ∧ 0 ≤ (headPos k).y ∧ (headPos k).y < (GRID_Y_SIZE : Int) := by
  unfold headPos
  simp only [GRID_X_SIZE, GRID_Y_SIZE]
  refine ⟨?_, ?_, ?_, ?_⟩ <;> omega

theorem proj_some (o : Option SimContext) (st : SimulationState) (s : List Point)
    (h : o.map (fun c => (c.state, c.scanner)) = some (st, s)) :
    ∃ c, o = some c ∧ c.state = st ∧ c.scanner = s := by
  cases o with
  | none => exact Option.noConfusion h
  | some c =>
    simp only [Option.map_some'] at h
    have h2 := Option.some.inj h
    exact ⟨c, rfl, congrArg Prod.fst h2, congrArg Prod.snd h2⟩

theorem first_tick :
    ∃ c, SimContext.new.toggle_pause.next_tick = some c
      ∧ c.state = .Playing ∧ c.scanner = scannerAt 1 :=
  proj_some _ _ _ (by decide)

/- One Playing tick in the steady-state regime: head advances from
   headPos (a+1) to headPos (a+2); succeeds as long as the write row
   2 + (a+1)/101 stays inside the grid, i.e. a + 1 ≤ 9897. -/
theorem tick_step (ctx : SimContext) (a : Nat) (w : Point)
    (ha : a + 1 ≤ 9897) (hst : ctx.state = .Playing)
    (hsc : ctx.scanner = [headPos (a + 1), headPos a, w]) :
    ∃ c2, ctx.next_tick = some c2 ∧ c2.state = .Playing
      ∧ c2.scanner = [headPos (a + 2), headPos (a + 1), headPos a] := by
  have hmv := move_scanner_eq ctx _ _ _ hst hsc
  rw [headPos_step (a + 1)] at hmv
  have hw : (0:Int) ≤ (headPos (a + 1)).y + 1 ∧ (headPos (a + 1)).y + 1 < (GRID_Y_SIZE : Int) := by
    unfold headPos
    simp only [GRID_X_SIZE, GRID_Y_SIZE]
    constructor <;> omega
  obtain ⟨p, hp2⟩ := get_value_isSome
    { ctx with scanner := [headPos (a + 2), headPos (a + 1), headPos a] }
    (headPos a) (headPos_bounds a (by omega))
  obtain ⟨q, hq2⟩ := get_value_isSome
    { ctx with scanner := [headPos (a + 2), headPos (a + 1), headPos a] }
    (headPos (a + 1)) (headPos_bounds (a + 1) (by omega))
  obtain ⟨r, hr2⟩ := get_value_isSome
    { ctx with scanner := [headPos (a + 2), headPos (a + 1), headPos a] }
    (headPos (a + 2)) (headPos_bounds (a + 2) (by omega))
  have hcalc := calculate_state_eq
    { ctx with scanner := [headPos (a + 2), headPos (a + 1), headPos a] }
    (headPos (a + 2)) (headPos (a + 1)) (headPos a) p q r rfl hp2 hq2 hr2 hw
  have hnt : ctx.next_tick = ctx.move_scanner.bind SimContext.calculate_state := by
    unfold SimContext.next_tick
    rw [hst]
  have hfinal : ctx.next_tick
      = some { ctx with
          scanner := [headPos (a + 2), headPos (a + 1), headPos a]
          points := write_cell ctx.points (headPos (a + 1)).x.toNat
            ((headPos (a + 1)).y + 1).toNat (ruleFn p q r) } := by
    rw [hnt, hmv, Option.some_bind]
    exact hcalc
  exact ⟨_, hfinal, hst, rfl⟩

/- The main reachability invariant for the unbounded Playing sweep:
   for 1 ≤ t ≤ 9898 the t-th tick succeeds and the scanner is scannerAt t. -/
theorem run_inv : ∀ t : Nat, 1 ≤ t → t ≤ 9898 →
    ∃ c, run_ticks SimContext.new.toggle_pause t = some c
      ∧ c.state = .Playing ∧ c.scanner = scannerAt t := by
  intro t
  induction t with
  | zero => intro h1 _; exact absurd h1 (by omega)
  | succ n ih =>
    intro _ h2
    rcases Nat.eq_zero_or_pos n with hn | hn
    · subst hn
      exact first_tick
    · obtain ⟨c, hrun, hst, hsc⟩ := ih (by omega) (by omega)
      obtain ⟨a, rfl⟩ : ∃ a, n = a + 1 := ⟨n - 1, by omega⟩
      have hthird : scannerAt (a + 1) = [headPos (a + 1), headPos a, thirdAt a] := rfl
      obtain ⟨c2, htick, hst2, hsc2⟩ :=
        tick_step c a (thirdAt a) (by omega) hst (by rw [hsc, hthird])
      refine ⟨c2, ?_, hst2, ?_⟩
      · show (run_ticks _ (a + 1)).bind SimContext.next_tick = some c2
        rw [hrun, Option.some_bind]
        exact htick
      · rw [hsc2]
        rfl

/- ### Projection / length preservation lemmas (for the reachability claims) -/

theorem calculate_state_proj (c c2 : SimContext) (h : c.calculate_state = some c2) :
    c2.scanner = c.scanner ∧ c2.state = c.state := by
  unfold SimContext.calculate_state at h
  rw [Option.bind_eq_some] at h
  obtain ⟨pp, hpp, h⟩ := h
  rw [Option.bind_eq_some] at h
  obtain ⟨pq, hpq, h⟩ := h
  rw [Option.bind_eq_some] at h
  obtain ⟨pr, hpr, h⟩ := h
  rw [Option.bind_eq_some] at h
  obtain ⟨p, hgp, h⟩ := h
  rw [Option.bind_eq_some] at h
  obtain ⟨q, hgq, h⟩ := h
  rw [Option.bind_eq_some] at h
  obtain ⟨r, hgr, h⟩ := h
  rw [Option.map_eq_some'] at h
  obtain ⟨g, hg, h⟩ := h
  rw [← h]
  exact ⟨rfl, rfl⟩

theorem move_scanner_len (c c2 : SimContext) (h : c.move_scanner = some c2) :
    c2.scanner.length = c.scanner.length := by
  unfold SimContext.move_scanner at h
  cases hst : c.state with
  | Paused =>
    rw [hst] at h
    rw [← Option.some.inj h]
  | Playing =>
    rw [hst] at h
    cases hh : c.scanner.head? with
    | none => rw [hh] at h; exact Option.noConfusion h
    | some head =>
      rw [hh] at h
      rw [← Option.some.inj h]
      cases hl : c.scanner with
      | nil => rw [hl] at hh; exact Option.noConfusion hh
      | cons a as =>
        show ((a :: as).dropLast.reverse ++ [_]).reverse.length = (a :: as).length
        simp

theorem apply_op_length (c c2 : SimContext) (o : Op) (h : apply_op c o = some c2)
    (hl : c.scanner.length = 3) : c2.scanner.length = 3 := by
  cases o with
  | toggle =>
    rw [← Option.some.inj h]
    exact hl
  | tick =>
    unfold apply_op SimContext.next_tick at h
    cases hst : c.state with
    | Paused =>
      rw [hst] at h
      rw [← Option.some.inj h]
      exact hl
    | Playing =>
      rw [hst] at h
      rw [Option.bind_eq_some] at h
      obtain ⟨cm, hmv, hcalc⟩ := h
      rw [(calculate_state_proj cm c2 hcalc).1, move_scanner_len c cm hmv]
      exact hl

theorem run_ops_length : ∀ (ops : List Op) (c c2 : SimContext),
    run_ops c ops = some c2 → c.scanner.length = 3 → c2.scanner.length = 3 := by
  intro ops
  induction ops with
  | nil =>
    intro c c2 h hl
    rw [← Option.some.inj h]
    exact hl
  | cons o rest ih =>
    intro c c2 h hl
    unfold run_ops at h
    rw [Option.bind_eq_some] at h
    obtain ⟨cmid, hop, hrest⟩ := h
    exact ih cmid c2 hrest (apply_op_length c cmid o hop hl)

/- ### Definitions used only to state claims -/

/- The classical Wolfram numbering of an elementary automaton rule: the new
   cell for neighbourhood (l, m, r) is bit 4l + 2m + r of the rule number. -/
def wolframRule (n : Nat) (l m r : Bool) : Bool :=
  n.testBit ((if l then 4 else 0) + (if m then 2 else 0) + (if r then 1 else 0))

/- The spec's scanner shape from C4: exactly 3 points on one common row whose
   x coordinates are three consecutive integers (a 3-wide window). -/
def contiguousWindow (s : List Point) : Prop :=
  match s with
  | [a, b, c] =>
    a.y = b.y ∧ b.y = c.y ∧
      ({a.x, b.x, c.x} : Multiset Int)
        = {min a.x (min b.x c.x), min a.x (min b.x c.x) + 1, min a.x (min b.x c.x) + 2}
  | _ => False

/- The example configuration of spec §8: grid true exactly at (50, 1),
   scanner [(49,1), (50,1), (51,1)]. -/
def exCtx : SimContext :=
  { points := fun i j => if i.val = 50 ∧ j.val = 1 then true else false
    scanner := [⟨49, 1⟩, ⟨50, 1⟩, ⟨51, 1⟩]
    state := .Paused }

/- A Playing context whose scanner head sits at the right edge x = 100
   (= GRID_X_SIZE - 1), about to wrap. -/
def wrapCtx : SimContext :=
  { points := SimContext.new.points
    scanner := [⟨100, 1⟩, ⟨99, 1⟩, ⟨98, 1⟩]
    state := .Playing }

/- ### Claim theorems -/

/-- C2 counterexample: take (left, middle, right) = (false, true, true).  With
the spec's labelling (r = leftmost value, q = middle, p = rightmost), the
update p XOR (q OR r) yields ruleFn true true false = false, while rule 94
maps the neighbourhood (false, true, true) to true.  The truth table is
therefore not rule 94's. -/
theorem rule_not_rule94 : ruleFn true true false ≠ wolframRule 94 false true true := by
  decide

/-- C2 amended: the three-neighbor update p XOR (q OR r) used by
calculate_state has, under the spec's labelling (r leftmost, q middle, p
rightmost), the 8-entry truth table of Wolfram rule 86, not 94; read with the
code's actual steady-state orientation (scanner[0] is the rightmost point, so
p is the leftmost value) the same table is Wolfram rule 30, matching the
repository's name. -/
theorem rule_is_rule86_and_rule30 :
    (∀ l m r : Bool, ruleFn r m l = wolframRule 86 l m r)
      ∧ (∀ l m r : Bool, ruleFn l m r = wolframRule 30 l m r) := by
  constructor <;> decide

/-- C3: on a Playing context with scanner [s0, s1, s2], move_scanner produces
exactly the scanner [next_head, s0, s1] with next_head = s0 + (1,0) when
s0.x ≠ 100 and next_head = (0, s0.y + 1) when s0.x = 100; the grid and the
pause state are unchanged. -/
theorem move_scanner_shift (ctx : SimContext) (s0 s1 s2 : Point)
    (hst : ctx.state = SimulationState.Playing) (hsc : ctx.scanner = [s0, s1, s2]) :
    ∃ c2, ctx.move_scanner = some c2
      ∧ c2.scanner = [if s0.x = 100 then (⟨0, s0.y + 1⟩ : Point) else s0 + (⟨1, 0⟩ : Point), s0, s1]
      ∧ c2.points = ctx.points ∧ c2.state = ctx.state := by
  refine ⟨_, move_scanner_eq ctx s0 s1 s2 hst hsc, ?_, rfl, rfl⟩
  have h100 : (GRID_X_SIZE : Int) - 1 = 100 := by decide
  rw [h100]

/-- C3 witness: from the Playing initial configuration (scanner
[(0,1),(1,1),(2,1)], head x = 0 ≠ 100) move_scanner yields the scanner
[(1,1),(0,1),(1,1)], grid and state untouched. -/
theorem move_scanner_shift_witness :
    ∃ c2, SimContext.new.toggle_pause.move_scanner = some c2
      ∧ c2.scanner = [if (0 : Int) = 100 then (⟨0, (1:Int) + 1⟩ : Point)
          else (⟨0, 1⟩ : Point) + (⟨1, 0⟩ : Point), ⟨0, 1⟩, ⟨1, 1⟩]
      ∧ c2.points = SimContext.new.toggle_pause.points
      ∧ c2.state = SimContext.new.toggle_pause.state :=
  move_scanner_shift SimContext.new.toggle_pause ⟨0, 1⟩ ⟨1, 1⟩ ⟨2, 1⟩ rfl rfl

/-- C8: next_tick on a Paused context is a no-op: it succeeds and returns the
context itself, so grid, scanner and state are all exactly unchanged. -/
theorem next_tick_paused_noop (ctx : SimContext) (h : ctx.state = .Paused) :
    ctx.next_tick = some ctx := by
  unfold SimContext.next_tick
  rw [h]

/-- C8 witness: SimContext.new starts Paused and next_tick leaves it exactly
as it is. -/
theorem next_tick_paused_noop_witness :
    SimContext.new.state = .Paused ∧ SimContext.new.next_tick = some SimContext.new :=
  ⟨rfl, next_tick_paused_noop SimContext.new rfl⟩

/-- C9: toggle_pause maps Playing to Paused and Paused to Playing, changes
nothing besides the state field, and applied twice is the identity. -/
theorem toggle_pause_involution (ctx : SimContext) :
    ctx.toggle_pause.toggle_pause = ctx
      ∧ ctx.toggle_pause.points = ctx.points
      ∧ ctx.toggle_pause.scanner = ctx.scanner
      ∧ (ctx.state = .Playing → ctx.toggle_pause.state = .Paused)
      ∧ (ctx.state = .Paused → ctx.toggle_pause.state = .Playing) := by
  cases ctx with
  | mk pts sc st =>
    cases st <;> simp [SimContext.toggle_pause]

/-- C9 witness: the involution and field preservation evaluated at
SimContext.new (Paused), whose single toggle is Playing. -/
theorem toggle_pause_involution_witness :
    SimContext.new.toggle_pause.toggle_pause = SimContext.new
      ∧ SimContext.new.toggle_pause.points = SimContext.new.points
      ∧ SimContext.new.toggle_pause.scanner = SimContext.new.scanner
      ∧ (SimContext.new.state = .Playing → SimContext.new.toggle_pause.state = .Paused)
      ∧ (SimContext.new.state = .Paused → SimContext.new.toggle_pause.state = .Playing) :=
  toggle_pause_involution SimContext.new

/-- C10: SimContext.new has scanner [(0,1),(1,1),(2,1)], state Paused, and a
grid that is true exactly at the single cell (51, 1), where
51 = div_ceil(GRID_X_SIZE, 2) = ceil(101/2). -/
theorem new_initial_conditions :
    SimContext.new.scanner = [⟨0, 1⟩, ⟨1, 1⟩, ⟨2, 1⟩]
      ∧ SimContext.new.state = .Paused
      ∧ divCeil GRID_X_SIZE 2 = 51
      ∧ ∀ (i : Fin GRID_X_SIZE) (j : Fin GRID_Y_SIZE),
          SimContext.new.points i j = true ↔ (i.val = 51 ∧ j.val = 1) := by
  refine ⟨rfl, rfl, rfl, ?_⟩
  intro i j
  show (if i.val = divCeil GRID_X_SIZE 2 ∧ j.val = 1 then true else false) = true
    ↔ (i.val = 51 ∧ j.val = 1)
  split
  next h => exact ⟨fun _ => ⟨h.1, h.2⟩, fun _ => rfl⟩
  next h =>
    constructor
    · intro hf
      exact absurd hf (by decide)
    · intro hc
      exact absurd ⟨hc.1, hc.2⟩ h

/-- C1: for a context whose 3-point scanner reads succeed — p at scanner[2],
q at scanner[1], r at scanner[0] — and whose write row s1.y + 1 is inside the
grid, calculate_state writes ruleFn p q r = p XOR (q OR r) to the cell
(scanner[1].x, scanner[1].y + 1); every other grid cell, the scanner and the
pause state are unchanged. -/
theorem calculate_state_frame (ctx : SimContext) (s0 s1 s2 : Point) (p q r : Bool)
    (hsc : ctx.scanner = [s0, s1, s2])
    (hpv : ctx.get_value_at_point s2 = some p)
    (hqv : ctx.get_value_at_point s1 = some q)
    (hrv : ctx.get_value_at_point s0 = some r)
    (hw : 0 ≤ s1.y + 1 ∧ s1.y + 1 < (GRID_Y_SIZE : Int)) :
    ∃ c2, ctx.calculate_state = some c2
      ∧ c2.scanner = ctx.scanner ∧ c2.state = ctx.state
      ∧ c2.get_value_at_point ⟨s1.x, s1.y + 1⟩ = some (ruleFn p q r)
      ∧ ∀ pt : Point, pt ≠ ⟨s1.x, s1.y + 1⟩ →
          c2.get_value_at_point pt = ctx.get_value_at_point pt := by
  have hb := get_value_bounds ctx s1 q hqv
  have htb : (0:Int) ≤ (⟨s1.x, s1.y + 1⟩ : Point).x
      ∧ (⟨s1.x, s1.y + 1⟩ : Point).x < (GRID_X_SIZE : Int)
      ∧ 0 ≤ (⟨s1.x, s1.y + 1⟩ : Point).y
      ∧ (⟨s1.x, s1.y + 1⟩ : Point).y < (GRID_Y_SIZE : Int) :=
    ⟨hb.1, hb.2.1, hw.1, hw.2⟩
  refine ⟨_, calculate_state_eq ctx s0 s1 s2 p q r hsc hpv hqv hrv hw, rfl, rfl, ?_, ?_⟩
  · exact get_value_write_same ctx ⟨s1.x, s1.y + 1⟩ (ruleFn p q r) htb
  · intro pt hne
    exact get_value_write_other ctx pt ⟨s1.x, s1.y + 1⟩ (ruleFn p q r) htb hne

/-- C1 witness: the spec §8 example.  Scanner [(49,1),(50,1),(51,1)] over a
grid true only at (50,1): p = false, q = true, r = false, the write sets
(50, 2) to true, and every other cell is unchanged. -/
theorem calculate_state_frame_witness :
    ∃ c2, exCtx.calculate_state = some c2
      ∧ c2.scanner = exCtx.scanner ∧ c2.state = exCtx.state
      ∧ c2.get_value_at_point ⟨50, 2⟩ = some true
      ∧ ∀ pt : Point, pt ≠ ⟨50, 2⟩ →
          c2.get_value_at_point pt = exCtx.get_value_at_point pt :=
  calculate_state_frame exCtx ⟨49, 1⟩ ⟨50, 1⟩ ⟨51, 1⟩ false true false rfl
    (by decide) (by decide) (by decide) (by decide)

/-- C5 counterexample: the Playing context toggled from SimContext.new has
scanner exactly [(0,1),(1,1),(2,1)]; one next_tick leaves the scanner as
[(1,1),(0,1),(1,1)], and (3,1) is not among its points, so the post-tick
scanner is not the set {(1,1),(2,1),(3,1)}. -/
theorem tick_from_initial_not_shift :
    (SimContext.new.toggle_pause.next_tick).map SimContext.scanner
        = some [(⟨1, 1⟩ : Point), ⟨0, 1⟩, ⟨1, 1⟩]
      ∧ ¬ ((⟨3, 1⟩ : Point) ∈ [(⟨1, 1⟩ : Point), ⟨0, 1⟩, ⟨1, 1⟩]) := by
  constructor
  · decide
  · decide

/-- C5 amended: from any Playing context with scanner [(0,1),(1,1),(2,1)] one
next_tick yields the scanner [(1,1),(0,1),(1,1)]: the new head (1,1) is
prepended, the former head and middle are kept, and the former tail (2,1) is
dropped — not a rightward shift of the whole window. -/
theorem tick_from_initial_scanner (ctx : SimContext)
    (hst : ctx.state = .Playing) (hsc : ctx.scanner = [⟨0, 1⟩, ⟨1, 1⟩, ⟨2, 1⟩]) :
    ∃ c2, ctx.next_tick = some c2 ∧ c2.scanner = [⟨1, 1⟩, ⟨0, 1⟩, ⟨1, 1⟩] := by
  have hmv := move_scanner_eq ctx ⟨0, 1⟩ ⟨1, 1⟩ ⟨2, 1⟩ hst hsc
  rw [show (if (⟨0, 1⟩ : Point).x = (GRID_X_SIZE : Int) - 1
        then (⟨0, (⟨0, 1⟩ : Point).y + 1⟩ : Point)
        else (⟨0, 1⟩ : Point) + (⟨1, 0⟩ : Point)) = (⟨1, 1⟩ : Point) from by decide] at hmv
  obtain ⟨p, hp2⟩ := get_value_isSome
    { ctx with scanner := [(⟨1, 1⟩ : Point), ⟨0, 1⟩, ⟨1, 1⟩] } ⟨1, 1⟩ (by decide)
  obtain ⟨q, hq2⟩ := get_value_isSome
    { ctx with scanner := [(⟨1, 1⟩ : Point), ⟨0, 1⟩, ⟨1, 1⟩] } ⟨0, 1⟩ (by decide)
  have hcalc := calculate_state_eq
    { ctx with scanner := [(⟨1, 1⟩ : Point), ⟨0, 1⟩, ⟨1, 1⟩] }
    ⟨1, 1⟩ ⟨0, 1⟩ ⟨1, 1⟩ p q p rfl hp2 hq2 hp2 (by decide)
  have hnt : ctx.next_tick = ctx.move_scanner.bind SimContext.calculate_state := by
    unfold SimContext.next_tick
    rw [hst]
  have hfinal : ctx.next_tick = some { ctx with
      scanner := [(⟨1, 1⟩ : Point), ⟨0, 1⟩, ⟨1, 1⟩]
      points := write_cell ctx.points ((⟨0, 1⟩ : Point).x).toNat
        (((⟨0, 1⟩ : Point).y) + 1).toNat (ruleFn p q p) } := by
    rw [hnt, hmv, Option.some_bind]
    exact hcalc
  exact ⟨_, hfinal, rfl⟩

/-- C5 witness: at the concrete toggled initial context the amended statement
holds: one tick produces scanner [(1,1),(0,1),(1,1)]. -/
theorem tick_from_initial_scanner_witness :
    ∃ c2, SimContext.new.toggle_pause.next_tick = some c2
      ∧ c2.scanner = [(⟨1, 1⟩ : Point), ⟨0, 1⟩, ⟨1, 1⟩] :=
  tick_from_initial_scanner SimContext.new.toggle_pause rfl rfl

/-- C6 counterexample: wrapCtx is Playing with scanner [(100,1),(99,1),(98,1)]
(head x = 100 = W - 1).  One next_tick gives scanner [(0,2),(100,1),(99,1)],
and (1,2) is not among its points, so the post-tick scanner is not
{(0,2),(1,2),(2,2)}. -/
theorem wrap_tick_not_full_window :
    (wrapCtx.next_tick).map SimContext.scanner
        = some [(⟨0, 2⟩ : Point), ⟨100, 1⟩, ⟨99, 1⟩]
      ∧ ¬ ((⟨1, 2⟩ : Point) ∈ [(⟨0, 2⟩ : Point), ⟨100, 1⟩, ⟨99, 1⟩]) := by
  constructor
  · decide
  · decide

/-- C6 amended: from a Playing context with scanner [(100,1), s1, s2] one
next_tick yields scanner [(0,2), (100,1), s1]: the new head wraps to x = 0 on
row 2 and no point with x = 101 is created, but the two remaining entries are
the former head (100,1) and former middle s1, still on row 1 — not the full
window {(0,2),(1,2),(2,2)}. -/
theorem wrap_tick_scanner (ctx : SimContext) (s1 s2 : Point) (pv : Bool)
    (hst : ctx.state = .Playing) (hsc : ctx.scanner = [⟨100, 1⟩, s1, s2])
    (hs1 : ctx.get_value_at_point s1 = some pv) :
    ∃ c2, ctx.next_tick = some c2
      ∧ c2.scanner = [⟨0, 2⟩, ⟨100, 1⟩, s1]
      ∧ ∀ pt ∈ c2.scanner, pt.x ≠ 101 := by
  have hbs1 := get_value_bounds ctx s1 pv hs1
  have hmv := move_scanner_eq ctx ⟨100, 1⟩ s1 s2 hst hsc
  rw [show (if (⟨100, 1⟩ : Point).x = (GRID_X_SIZE : Int) - 1
        then (⟨0, (⟨100, 1⟩ : Point).y + 1⟩ : Point)
        else (⟨100, 1⟩ : Point) + (⟨1, 0⟩ : Point)) = (⟨0, 2⟩ : Point) from by decide] at hmv
  obtain ⟨q2, hq2⟩ := get_value_isSome
    { ctx with scanner := [(⟨0, 2⟩ : Point), ⟨100, 1⟩, s1] } ⟨100, 1⟩ (by decide)
  obtain ⟨r2, hr2⟩ := get_value_isSome
    { ctx with scanner := [(⟨0, 2⟩ : Point), ⟨100, 1⟩, s1] } ⟨0, 2⟩ (by decide)
  have hp2 : SimContext.get_value_at_point
      { ctx with scanner := [(⟨0, 2⟩ : Point), ⟨100, 1⟩, s1] } s1 = some pv := hs1
  have hcalc := calculate_state_eq
    { ctx with scanner := [(⟨0, 2⟩ : Point), ⟨100, 1⟩, s1] }
    ⟨0, 2⟩ ⟨100, 1⟩ s1 pv q2 r2 rfl hp2 hq2 hr2 (by decide)
  have hnt : ctx.next_tick = ctx.move_scanner.bind SimContext.calculate_state := by
    unfold SimContext.next_tick
    rw [hst]
  refine ⟨{ ctx with
      scanner := [(⟨0, 2⟩ : Point), ⟨100, 1⟩, s1]
      points := write_cell ctx.points ((⟨100, 1⟩ : Point).x).toNat
        (((⟨100, 1⟩ : Point).y) + 1).toNat (ruleFn pv q2 r2) }, ?_, rfl, ?_⟩
  · rw [hnt, hmv, Option.some_bind]
    exact hcalc
  · intro pt hpt
    simp only [List.mem_cons, List.not_mem_nil, or_false] at hpt
    rcases hpt with h | h | h
    · rw [h]; decide
    · rw [h]; decide
    · rw [h]
      simp only [GRID_X_SIZE, GRID_Y_SIZE] at hbs1
      omega

/-- C6 witness: the amended statement at the concrete wrapCtx: one tick gives
scanner [(0,2),(100,1),(99,1)] with no x = 101 point. -/
theorem wrap_tick_scanner_witness :
    ∃ c2, wrapCtx.next_tick = some c2
      ∧ c2.scanner = [⟨0, 2⟩, ⟨100, 1⟩, ⟨99, 1⟩]
      ∧ ∀ pt ∈ c2.scanner, pt.x ≠ 101 :=
  wrap_tick_scanner wrapCtx ⟨99, 1⟩ ⟨98, 1⟩ false rfl rfl (by decide)

/-- C4 counterexample: the reachable state obtained from SimContext.new by
one toggle_pause and one next_tick has scanner [(1,1),(0,1),(1,1)], whose x
values (1, 0, 1) contain a duplicate, so they are not three consecutive x
values at all: the contiguous 3-window invariant fails on a reachable
state. -/
theorem scanner_window_invariant_fails :
    (run_ops SimContext.new [Op.toggle, Op.tick]).map SimContext.scanner
        = some [(⟨1, 1⟩ : Point), ⟨0, 1⟩, ⟨1, 1⟩]
      ∧ ¬ contiguousWindow [(⟨1, 1⟩ : Point), ⟨0, 1⟩, ⟨1, 1⟩] := by
  constructor
  · decide
  · intro h
    unfold contiguousWindow at h
    obtain ⟨h1, h2, hm⟩ := h
    exact absurd hm (by decide)

/-- C4 amended: in every state reachable from SimContext.new by ticks and
toggles the scanner is an ordered sequence of exactly 3 Points; it is not
always a contiguous fixed-row 3-window, because each tick produces
[new_head, former_head, former_middle], which duplicates a point during the
first two ticks and mixes two rows for two ticks after every row wrap. -/
theorem scanner_length_invariant (ctx : SimContext) (h : Reachable ctx) :
    ctx.scanner.length = 3 := by
  obtain ⟨ops, hops⟩ := h
  exact run_ops_length ops SimContext.new ctx hops rfl

/-- C4 witness: SimContext.new itself is reachable (empty operation list) and
its scanner has exactly 3 points. -/
theorem scanner_length_invariant_witness :
    Reachable SimContext.new ∧ SimContext.new.scanner.length = 3 :=
  ⟨⟨[], rfl⟩, scanner_length_invariant SimContext.new ⟨[], rfl⟩⟩

/-- C7: no operation checks the vertical bound.  Unpausing SimContext.new and
ticking 9898 times succeeds and leaves a Playing state whose scanner head is
about to leave the last row: on the next tick move_scanner succeeds (middle
point (0, 99)), but calculate_state must write to row 99 + 1 = 100 =
GRID_Y_SIZE, an out-of-bounds index, so the guarded write faults (none) and
the whole tick faults instead of clamping or skipping. -/
theorem tick_faults_at_bottom_row :
    ∃ c, run_ticks SimContext.new.toggle_pause 9898 = some c
      ∧ c.state = .Playing
      ∧ (∃ cm, c.move_scanner = some cm ∧ cm.scanner.get? 1 = some ⟨0, 99⟩
          ∧ cm.calculate_state = none)
      ∧ c.next_tick = none := by
  obtain ⟨c, hrun, hst, hsc⟩ := run_inv 9898 (by omega) (by omega)
  have hsc2 : c.scanner = [headPos 9898, headPos 9897, headPos 9896] := by
    rw [hsc]
    rfl
  have hmv := move_scanner_eq c (headPos 9898) (headPos 9897) (headPos 9896) hst hsc2
  rw [headPos_step 9898] at hmv
  obtain ⟨p, hp2⟩ := get_value_isSome
    { c with scanner := [headPos (9898 + 1), headPos 9898, headPos 9897] }
    (headPos 9897) (headPos_bounds 9897 (by omega))
  obtain ⟨q, hq2⟩ := get_value_isSome
    { c with scanner := [headPos (9898 + 1), headPos 9898, headPos 9897] }
    (headPos 9898) (headPos_bounds 9898 (by omega))
  obtain ⟨r, hr2⟩ := get_value_isSome
    { c with scanner := [headPos (9898 + 1), headPos 9898, headPos 9897] }
    (headPos (9898 + 1)) (headPos_bounds (9898 + 1) (by omega))
  have hoob : ¬ (headPos 9898).y + 1 < (GRID_Y_SIZE : Int) := by decide
  have hcalc := calculate_state_none_of_write_oob
    { c with scanner := [headPos (9898 + 1), headPos 9898, headPos 9897] }
    (headPos (9898 + 1)) (headPos 9898) (headPos 9897) p q r rfl hp2 hq2 hr2 hoob
  have hnt : c.next_tick = c.move_scanner.bind SimContext.calculate_state := by
    unfold SimContext.next_tick
    rw [hst]
  refine ⟨c, hrun, hst, ⟨_, hmv, ?_, hcalc⟩, ?_⟩
  · show some (headPos 9898) = some (⟨0, 99⟩ : Point)
    decide
  · rw [hnt, hmv, Option.some_bind]
    exact hcalc
